import Mathlib

/-!
Verification of `django_dynamic_admin` (src/django_dynamic_admin/__init__.py).

The module composes Django admin classes at configuration time.  We embed:

* Python admin classes as a small class calculus `AdminClass` with a class
  `__dict__` (an association list from attribute name to value) and base
  classes; attribute resolution `getattr` walks the own dict first and then,
  for single inheritance, the base (which coincides with Python's MRO), and
  for the two-base synthesis `override_admin` builds it resolves along the
  C3 linearisation (`mro`), computed by Python's MRO merge.  A hierarchy on
  which the merge fails is one Python's `type` refuses to create (it raises
  `TypeError`, e.g. bases in subclass order or duplicated); `mro` returns
  `none` there, and claims about resolution on a synthesized class carry
  the consistency of its MRO as a hypothesis.  Caller-supplied classes are
  not validated by the registration model itself, matching spec section 7's
  scoping of invalid-enhancement failures to the host framework.
* Django's `admin.site` as an association list from a model identifier to
  the registered admin class.  Per the host framework's admin-registration
  API (spec sections 6-7): `register` raises `AlreadyRegistered` when the
  model is already present, `unregister` raises `NotRegistered` when it is
  absent; both are modelled with `Except`.
* `admin.ModelAdmin` as the attribute-less base class `AdminClass.modelAdmin`:
  its own declared attributes belong to the external framework and are out
  of this spec's scope, so the module's `getattr` defaults are what applies.
* list columns as `Column`: a text identifier (Python 2 `basestring`) or a
  callable.
-/

namespace DjangoDynamicAdmin

/-- A `list_display` column: a plain text identifier or a callable
(identified by a label). -/
inductive Column where
  | str (s : String)
  | callable (id : Nat)
deriving DecidableEq, Repr

/-- `isinstance(column, basestring)`: true exactly for text columns. -/
def Column.isBasestring : Column → Bool
  | .str _ => true
  | .callable _ => false

/-- An inline class: its base inline class (e.g. `admin.StackedInline`,
identified by a label) and its `model` attribute.  `attach_inline_to_admin`
line 43-45 builds `type("Inline", (inline_class,), {'model': model_enhancement})`,
i.e. exactly this pair. -/
structure InlineClass where
  base : Nat
  model : Nat
deriving DecidableEq, Repr

/-- The label we use for `admin.StackedInline`, the default `inline_class`. -/
def stackedInline : Nat := 0

/-- A value sitting in an admin class `__dict__`: one of the three
configuration attributes this module manipulates, or any other attribute
(for `override_admin`'s arbitrary mixins). -/
inductive Attr where
  | inlines (l : List InlineClass)
  | listDisplay (l : List Column)
  | listDisplayLinks (l : List Column)
  | val (v : Nat)
deriving DecidableEq, Repr

/-- A Python admin class: `admin.ModelAdmin` itself, a class with no
relevant bases, a single-inheritance class (what `type(name, (base,), dict)`
builds), or a two-base class (what `override_admin`'s
`type("NewModelAdmin", (x, y), {})` builds). -/
inductive AdminClass where
  | modelAdmin
  | plain (dict : List (String × Attr))
  | sub (dict : List (String × Attr)) (base : AdminClass)
  | sub2 (dict : List (String × Attr)) (b1 b2 : AdminClass)
deriving DecidableEq, Repr

/-- The class's own `__dict__`: the attributes defined by the class itself,
as opposed to inherited ones. -/
def classDict : AdminClass → List (String × Attr)
  | .modelAdmin => []
  | .plain d => d
  | .sub d _ => d
  | .sub2 d _ _ => d

/-- Boolean membership of a class in a list of classes. -/
def memClass (c : AdminClass) : List AdminClass → Bool
  | [] => false
  | h :: t => if h = c then true else memClass c t

/-- `c` occurs in the tail of `l`: the C3 merge rules a candidate head out
exactly when this holds for some list. -/
def inTail (c : AdminClass) : List AdminClass → Bool
  | [] => false
  | _ :: t => memClass c t

/-- The C3 candidate test: `c` is in the tail of none of the lists. -/
def goodHead (ls : List (List AdminClass)) (c : AdminClass) : Bool :=
  ls.all (fun l => !inTail c l)

/-- Scan the lists in order for the first head admissible w.r.t. `ls`. -/
def pickHead (ls : List (List AdminClass)) : List (List AdminClass) → Option AdminClass
  | [] => none
  | [] :: rest => pickHead ls rest
  | (c :: _) :: rest =>
    match goodHead ls c with
    | true => some c
    | false => pickHead ls rest

/-- Drop `c` from the front of a list when it heads it. -/
def removeHead (c : AdminClass) : List AdminClass → List AdminClass
  | [] => []
  | h :: t => if h = c then t else h :: t

/-- Python's C3 merge: repeatedly take the first admissible head and remove
it from every list, until all lists are exhausted; `none` when no head is
admissible (an inconsistent hierarchy).  Each successful step removes at
least one element in total, so fuel one above the total length suffices. -/
def mroMerge : Nat → List (List AdminClass) → Option (List AdminClass)
  | 0, _ => none
  | fuel + 1, ls =>
    match ls.all List.isEmpty with
    | true => some []
    | false =>
      match pickHead ls ls with
      | none => none
      | some c =>
        match mroMerge fuel (ls.map (removeHead c)) with
        | none => none
        | some r => some (c :: r)

/-- Python's method resolution order (the C3 linearisation): the class
itself, then for a single base its linearisation, and for two bases the C3
merge of both linearisations and the base-order list.  `none` models the
framework raising `TypeError` at class creation — such a class does not
exist, so no attribute resolution on it is observable. -/
def mro : AdminClass → Option (List AdminClass)
  | .modelAdmin => some [.modelAdmin]
  | .plain d => some [.plain d]
  | .sub d b =>
    match mro b with
    | some l => some (.sub d b :: l)
    | none => none
  | .sub2 d b1 b2 =>
    match mro b1, mro b2 with
    | some l1, some l2 =>
      match mroMerge (l1.length + l2.length + 3) [l1, l2, [b1, b2]] with
      | some l => some (.sub2 d b1 b2 :: l)
      | none => none
    | _, _ => none

/-- Resolve an attribute along an MRO: the first class whose own
`__dict__` holds it wins. -/
def resolveAlong : List AdminClass → String → Option Attr
  | [], _ => none
  | c :: rest, n =>
    match List.lookup n (classDict c) with
    | some v => some v
    | none => resolveAlong rest n

/-- Python attribute lookup on a class: own `__dict__` first, then for a
single base the base's resolution (which is Python's MRO order), and for
the two-base synthesis resolution along the C3 linearisation. -/
def getattr : AdminClass → String → Option Attr
  | .modelAdmin, _ => none
  | .plain d, n => List.lookup n d
  | .sub d b, n =>
    match List.lookup n d with
    | some v => some v
    | none => getattr b n
  | .sub2 d b1 b2, n =>
    match mro (.sub2 d b1 b2) with
    | some l => resolveAlong l n
    | none => none

/-- `getattr(admin_class, 'inlines', [])` (line 47). -/
def getInlines (c : AdminClass) : List InlineClass :=
  match getattr c "inlines" with
  | some (.inlines l) => l
  | _ => []

/-- `getattr(admin_class, 'list_display', ['pk'])` (lines 57-61). -/
def getListDisplay (c : AdminClass) : List Column :=
  match getattr c "list_display" with
  | some (.listDisplay l) => l
  | _ => [Column.str "pk"]

/-- `getattr(admin_class, 'list_display_links', [])` (lines 63-67). -/
def getListDisplayLinks (c : AdminClass) : List Column :=
  match getattr c "list_display_links" with
  | some (.listDisplayLinks l) => l
  | _ => []

/-- Lines 68-69: `if new_list_display and not new_list_display_links:
new_list_display_links = [new_list_display[0]]` — the implicit-link
promotion, computed on the pre-insertion `list_display`. -/
def promotedLinks (c : AdminClass) : List Column :=
  match getListDisplay c, getListDisplayLinks c with
  | d :: _, [] => [d]
  | _, _ => getListDisplayLinks c

/-- The admin site registry: model identifier to registered admin class. -/
abbrev Site := List (Nat × AdminClass)

/-- The two registration errors of the host framework's admin site. -/
inductive RegError where
  | notRegistered (model : Nat)
  | alreadyRegistered (model : Nat)
deriving DecidableEq, Repr

/-- The host framework's `admin.site.register(model, admin_class)`:
raises `AlreadyRegistered` when the model is already in the registry
(spec section 7: duplicate registration propagates the framework's own
failure), otherwise stores the admin class for the model. -/
def site_register (s : Site) (m : Nat) (a : AdminClass) : Except RegError Site :=
  match List.lookup m s with
  | some _ => .error (.alreadyRegistered m)
  | none => .ok (s ++ [(m, a)])

/-- The host framework's `admin.site.unregister(model)`: raises
`NotRegistered` when the model is not in the registry, otherwise deletes
its entry. -/
def site_unregister (s : Site) (m : Nat) : Except RegError Site :=
  match List.lookup m s with
  | some _ => .ok (List.filter (fun p => p.1 != m) s)
  | none => .error (.notRegistered m)

/-- How many admin classes the registry holds for a model (the claims
speak of "exactly one ... no duplicate and no missing registration"). -/
def countFor (s : Site) (m : Nat) : Nat :=
  (List.filter (fun p => p.1 == m) s).length

/-- Lines 3-11, `get_admin_class`: `admin.site._registry[model_class].__class__`
with the `KeyError` handler substituting `admin.ModelAdmin`. -/
def get_admin_class (s : Site) (m : Nat) : AdminClass :=
  (List.lookup m s).getD AdminClass.modelAdmin

/-- Lines 41-49, `attach_inline_to_admin`: resolve the current admin class,
unregister, synthesize `Inline` bound to the enhancement model and a new
admin class extending `inlines`, re-register.  A raised framework error
propagates to the caller. -/
def attach_inline_to_admin (s : Site) (model_class model_enhancement inline_class : Nat) :
    Except RegError Site :=
  let admin_class := get_admin_class s model_class
  match site_unregister s model_class with
  | .error e => .error e
  | .ok s2 =>
    let inl : InlineClass := ⟨inline_class, model_enhancement⟩
    site_register s2 model_class
      (AdminClass.sub [("inlines", Attr.inlines (getInlines admin_class ++ [inl]))]
        admin_class)

/-- Lines 55-85, `add_column_to_changelist`: resolve and unregister, read
`list_display` (default `['pk']`) and `list_display_links` (default `[]`,
with the implicit-link promotion of lines 68-69), insert the column at the
front when `prepend` else append, append it to the links when `link` and
the column is a text identifier, register the new class. -/
def add_column_to_changelist (s : Site) (model_class : Nat) (column : Column)
    (link prepend : Bool) : Except RegError Site :=
  let admin_class := get_admin_class s model_class
  match site_unregister s model_class with
  | .error e => .error e
  | .ok s2 =>
    let new_list_display := getListDisplay admin_class
    let new_list_display_links := promotedLinks admin_class
    let new_list_display :=
      if prepend then column :: new_list_display else new_list_display ++ [column]
    let new_list_display_links :=
      if link && column.isBasestring then new_list_display_links ++ [column]
      else new_list_display_links
    site_register s2 model_class
      (AdminClass.sub
        [("list_display", Attr.listDisplay new_list_display),
         ("list_display_links", Attr.listDisplayLinks new_list_display_links)]
        admin_class)

/-- Lines 105-110 of `override_admin`: the synthesized class
`type("NewModelAdmin", (x, y), {})` with `(x, y)` = (current, enhancement),
swapped when `prefer_new`. -/
def overrideNewAdmin (s : Site) (model_class : Nat) (admin_enhancement : AdminClass)
    (prefer_new : Bool) : AdminClass :=
  let admin_class := get_admin_class s model_class
  AdminClass.sub2 []
    (if prefer_new then admin_enhancement else admin_class)
    (if prefer_new then admin_class else admin_enhancement)

/-- Lines 87-111, `override_admin`: resolve the current admin class,
synthesize the two-base class, register it.  Note: the source never
unregisters here. -/
def override_admin (s : Site) (model_class : Nat) (admin_enhancement : AdminClass)
    (prefer_new : Bool) : Except RegError Site :=
  site_register s model_class (overrideNewAdmin s model_class admin_enhancement prefer_new)

/-! ### Registry lemmas -/

theorem get_admin_class_of_lookup {s : Site} {m : Nat} {a : AdminClass}
    (h : List.lookup m s = some a) : get_admin_class s m = a := by
  simp [get_admin_class, h]

theorem get_admin_class_of_lookup_none {s : Site} {m : Nat}
    (h : List.lookup m s = none) : get_admin_class s m = AdminClass.modelAdmin := by
  simp [get_admin_class, h]

theorem lookup_filter_self (s : Site) (m : Nat) :
    List.lookup m (List.filter (fun p => p.1 != m) s) = none := by
  induction s with
  | nil => rfl
  | cons p t ih =>
    by_cases hp : p.1 = m
    · simp [List.filter, hp, ih]
    · simp only [List.filter]
      have hne : (p.1 != m) = true := by simp [hp]
      rw [hne]
      simp only [List.lookup]
      have hne2 : (m == p.1) = false := by simp [Ne.symm hp]
      rw [hne2]
      exact ih

theorem lookup_append_single {s : Site} {m : Nat} (a : AdminClass)
    (h : List.lookup m s = none) : List.lookup m (s ++ [(m, a)]) = some a := by
  induction s with
  | nil => simp [List.lookup]
  | cons p t ih =>
    simp only [List.lookup] at h ⊢
    cases hmp : (m == p.1) with
    | true => rw [hmp] at h; exact absurd h (by simp)
    | false =>
      rw [hmp] at h
      simp only [List.cons_append, List.lookup, hmp]
      exact ih h

/-- After a successful unregister+register pair the registry holds the new
class for the model. -/
theorem lookup_reregister (s : Site) (m : Nat) (a : AdminClass) :
    List.lookup m (List.filter (fun p => p.1 != m) s ++ [(m, a)]) = some a :=
  lookup_append_single a (lookup_filter_self s m)

/-- After a successful unregister+register pair the registry holds exactly
one entry for the model. -/
theorem countFor_reregister (s : Site) (m : Nat) (a : AdminClass) :
    countFor (List.filter (fun p => p.1 != m) s ++ [(m, a)]) m = 1 := by
  simp only [countFor, List.filter_append]
  have h1 : List.filter (fun p => p.1 == m) (List.filter (fun p => p.1 != m) s) = [] := by
    rw [List.filter_filter]
    apply List.filter_eq_nil_iff.mpr
    intro p _
    by_cases hp : p.1 = m <;> simp [hp]
  rw [h1]
  simp

/-! ### Attribute lemmas for the synthesized classes -/

theorem getInlines_sub (a : AdminClass) (l : List InlineClass) :
    getInlines (AdminClass.sub [("inlines", Attr.inlines l)] a) = l := rfl

theorem getListDisplay_sub (a : AdminClass) (l l2 : List Column) :
    getListDisplay (AdminClass.sub
      [("list_display", Attr.listDisplay l),
       ("list_display_links", Attr.listDisplayLinks l2)] a) = l := rfl

theorem getListDisplayLinks_sub (a : AdminClass) (l l2 : List Column) :
    getListDisplayLinks (AdminClass.sub
      [("list_display", Attr.listDisplay l),
       ("list_display_links", Attr.listDisplayLinks l2)] a) = l2 := rfl

/-! ### MRO lemmas for the two-base synthesis -/

theorem mro_head (c : AdminClass) (l : List AdminClass) (h : mro c = some l) :
    ∃ t, l = c :: t := by
  cases c with
  | modelAdmin =>
    simp only [mro, Option.some.injEq] at h
    exact ⟨[], h.symm⟩
  | plain d =>
    simp only [mro, Option.some.injEq] at h
    exact ⟨[], h.symm⟩
  | sub d b =>
    cases hb : mro b with
    | none => simp [mro, hb] at h
    | some lb =>
      simp only [mro, hb, Option.some.injEq] at h
      exact ⟨lb, h.symm⟩
  | sub2 d b1 b2 =>
    cases hb1 : mro b1 with
    | none => simp [mro, hb1] at h
    | some l1 =>
      cases hb2 : mro b2 with
      | none => simp [mro, hb1, hb2] at h
      | some l2 =>
        cases hmm : mroMerge (l1.length + l2.length + 3) [l1, l2, [b1, b2]] with
        | none => simp [mro, hb1, hb2, hmm] at h
        | some r =>
          simp only [mro, hb1, hb2, hmm, Option.some.injEq] at h
          exact ⟨r, h.symm⟩

/-- In a merge over lists headed by the two bases plus the base-order list
`[b1, b2]`, only `b1` can be chosen first: `b2` is always blocked by the
tail of the base-order list.  So a successful merge starts with `b1`. -/
theorem mroMerge_first (fuel : Nat) (b1 b2 : AdminClass) (t1 t2 r : List AdminClass)
    (h : mroMerge (fuel + 1) [b1 :: t1, b2 :: t2, [b1, b2]] = some r) :
    ∃ r2, r = b1 :: r2 := by
  have hne : ([b1 :: t1, b2 :: t2, [b1, b2]].all List.isEmpty) = false := by
    simp
  have hb2 : goodHead [b1 :: t1, b2 :: t2, [b1, b2]] b2 = false := by
    simp [goodHead, inTail, memClass]
  rw [mroMerge, hne] at h
  cases hb1 : goodHead [b1 :: t1, b2 :: t2, [b1, b2]] b1 with
  | true =>
    simp only [pickHead, hb1] at h
    cases hmm : mroMerge fuel ([b1 :: t1, b2 :: t2, [b1, b2]].map (removeHead b1)) with
    | none => rw [hmm] at h; cases h
    | some r2 =>
      rw [hmm] at h
      exact ⟨r2, by injection h with h2; exact h2.symm⟩
  | false =>
    simp only [pickHead, hb1, hb2] at h
    cases h

/-- On a two-base class with a consistent MRO, an attribute defined in the
first base's own `__dict__` resolves to that definition (nothing precedes
the first base but the class itself). -/
theorem getattr_sub2_first (b1 b2 : AdminClass) (nm : String) (v : Attr)
    (hv : List.lookup nm (classDict b1) = some v)
    (hm : (mro (AdminClass.sub2 [] b1 b2)).isSome = true) :
    getattr (AdminClass.sub2 [] b1 b2) nm = some v := by
  cases hb1 : mro b1 with
  | none => simp [mro, hb1] at hm
  | some l1 =>
    cases hb2 : mro b2 with
    | none => simp [mro, hb1, hb2] at hm
    | some l2 =>
      cases hmm : mroMerge (l1.length + l2.length + 3) [l1, l2, [b1, b2]] with
      | none => simp [mro, hb1, hb2, hmm] at hm
      | some r =>
        obtain ⟨t1, rfl⟩ := mro_head b1 l1 hb1
        obtain ⟨t2, rfl⟩ := mro_head b2 l2 hb2
        obtain ⟨r2, rfl⟩ := mroMerge_first _ b1 b2 t1 t2 r hmm
        simp only [getattr, mro, hb1, hb2, hmm]
        simp only [classDict] at hv
        simp only [resolveAlong, classDict, List.lookup_nil]
        rw [hv]

/-! ### Behaviour of each operation on a registered model -/

theorem attach_inline_ok {s : Site} {m : Nat} {a : AdminClass} (e ic : Nat)
    (h : List.lookup m s = some a) :
    attach_inline_to_admin s m e ic
      = .ok (List.filter (fun p => p.1 != m) s ++
          [(m, AdminClass.sub [("inlines", Attr.inlines (getInlines a ++ [⟨ic, e⟩]))] a)]) := by
  simp [attach_inline_to_admin, site_unregister, site_register, h,
    get_admin_class_of_lookup h, lookup_filter_self]

theorem add_column_ok {s : Site} {m : Nat} {a : AdminClass} (c : Column) (lk pp : Bool)
    (h : List.lookup m s = some a) :
    add_column_to_changelist s m c lk pp
      = .ok (List.filter (fun p => p.1 != m) s ++
          [(m, AdminClass.sub
            [("list_display", Attr.listDisplay
              (if pp then c :: getListDisplay a else getListDisplay a ++ [c])),
             ("list_display_links", Attr.listDisplayLinks
              (if lk && c.isBasestring then promotedLinks a ++ [c] else promotedLinks a))]
            a)]) := by
  simp [add_column_to_changelist, site_unregister, site_register, h,
    get_admin_class_of_lookup h, lookup_filter_self]

theorem override_admin_error {s : Site} {m : Nat} {a : AdminClass}
    (enh : AdminClass) (pn : Bool) (h : List.lookup m s = some a) :
    override_admin s m enh pn = .error (.alreadyRegistered m) := by
  simp [override_admin, site_register, h]

/-! ### Claims -/

/-- C1: the claim that after every composer operation exactly one admin
class is registered for the target model, including when the model was
already registered, fails on `override_admin`: the source (lines 105-111)
never unregisters the current admin class, so on an already-registered
model the framework's `register` raises `AlreadyRegistered` and no new
class is registered. -/
theorem C1_override_admin_already_registered :
    override_admin [(0, AdminClass.modelAdmin)] 0 (AdminClass.plain []) false
      = .error (RegError.alreadyRegistered 0) := rfl

/-- C2 counterexample: calling `attach_inline_to_admin` on an unregistered
model does surface the "model not registered" condition to the caller —
`admin.site.unregister` (line 42) raises `NotRegistered` — contradicting
the claim that it is never surfaced. -/
theorem C2_counterexample_unregistered_raises :
    attach_inline_to_admin [] 0 1 stackedInline = .error (RegError.notRegistered 0) := rfl

/-- C2 amended: `get_admin_class` recognizes only the "model not
registered" condition and handles it by substituting `admin.ModelAdmin`
without raising; `override_admin` never surfaces it either; but
`attach_inline_to_admin` and `add_column_to_changelist` call the
framework's `unregister` before re-registering, so on an unregistered
model they surface the framework's `NotRegistered` error to the caller. -/
theorem C2_amended_error_surface (s : Site) (m e ic : Nat) (c : Column)
    (lk pp : Bool) (enh : AdminClass) (pn : Bool)
    (h : List.lookup m s = none) :
    get_admin_class s m = AdminClass.modelAdmin ∧
    attach_inline_to_admin s m e ic = .error (.notRegistered m) ∧
    add_column_to_changelist s m c lk pp = .error (.notRegistered m) ∧
    ∃ s2, override_admin s m enh pn = .ok s2 := by
  refine ⟨get_admin_class_of_lookup_none h, ?_, ?_, ?_⟩
  · simp [attach_inline_to_admin, site_unregister, h]
  · simp [add_column_to_changelist, site_unregister, h]
  · exact ⟨s ++ [(m, overrideNewAdmin s m enh pn)],
      by simp [override_admin, site_register, h]⟩

theorem C2_amended_error_surface_witness :
    List.lookup 3 ([] : Site) = none ∧
    (get_admin_class [] 3 = AdminClass.modelAdmin ∧
     attach_inline_to_admin [] 3 1 0 = .error (.notRegistered 3) ∧
     add_column_to_changelist [] 3 (Column.callable 2) false true = .error (.notRegistered 3) ∧
     ∃ s2, override_admin [] 3 AdminClass.modelAdmin true = .ok s2) :=
  ⟨rfl, C2_amended_error_surface [] 3 1 0 (Column.callable 2) false true
    AdminClass.modelAdmin true rfl⟩

/-- C3: `get_admin_class` returns `admin.ModelAdmin` for a model not in
the registry and the currently registered class for a registered model. -/
theorem C3_get_admin_class_resolution (s : Site) (m : Nat) (a : AdminClass) :
    (List.lookup m s = none → get_admin_class s m = AdminClass.modelAdmin) ∧
    (List.lookup m s = some a → get_admin_class s m = a) :=
  ⟨fun h => get_admin_class_of_lookup_none h, fun h => get_admin_class_of_lookup h⟩

theorem C3_get_admin_class_resolution_witness :
    get_admin_class [] 0 = AdminClass.modelAdmin ∧
    get_admin_class [(1, AdminClass.plain [])] 1 = AdminClass.plain [] :=
  ⟨(C3_get_admin_class_resolution [] 0 (AdminClass.plain [])).1 rfl,
   (C3_get_admin_class_resolution [(1, AdminClass.plain [])] 1 (AdminClass.plain [])).2 rfl⟩

/-- C4: `attach_inline_to_admin` is cumulative — after two calls with
enhancement models `e1` then `e2` on a registered model, the registered
admin class's `inlines` is the original list followed by an inline bound
to `e1` and then one bound to `e2`, in call order. -/
theorem C4_attach_inline_cumulative (s : Site) (m e1 e2 ic1 ic2 : Nat) (a : AdminClass)
    (h : List.lookup m s = some a) :
    ∃ s1 s2,
      attach_inline_to_admin s m e1 ic1 = .ok s1 ∧
      attach_inline_to_admin s1 m e2 ic2 = .ok s2 ∧
      getInlines (get_admin_class s2 m)
        = getInlines a ++ [⟨ic1, e1⟩, ⟨ic2, e2⟩] := by
  refine ⟨_, _, attach_inline_ok e1 ic1 h,
    attach_inline_ok e2 ic2 (lookup_reregister s m _), ?_⟩
  rw [get_admin_class_of_lookup (lookup_reregister _ m _)]
  rw [getInlines_sub, getInlines_sub]
  simp

theorem C4_attach_inline_cumulative_witness :
    List.lookup 0 ([(0, AdminClass.modelAdmin)] : Site) = some AdminClass.modelAdmin ∧
    (∃ s1 s2,
      attach_inline_to_admin [(0, AdminClass.modelAdmin)] 0 1 0 = .ok s1 ∧
      attach_inline_to_admin s1 0 2 0 = .ok s2 ∧
      getInlines (get_admin_class s2 0)
        = getInlines AdminClass.modelAdmin ++ [⟨0, 1⟩, ⟨0, 2⟩]) :=
  ⟨rfl, C4_attach_inline_cumulative [(0, AdminClass.modelAdmin)] 0 1 2 0 0
    AdminClass.modelAdmin rfl⟩

/-- C5: `add_column_to_changelist` with `prepend=True` puts the new column
first in the registered class's `list_display`, with `prepend=False` last;
the pre-existing columns keep their relative order in both cases. -/
theorem C5_prepend_append (s : Site) (m : Nat) (c : Column) (lk : Bool) (a : AdminClass)
    (h : List.lookup m s = some a) :
    ∃ s1 s2,
      add_column_to_changelist s m c lk true = .ok s1 ∧
      add_column_to_changelist s m c lk false = .ok s2 ∧
      getListDisplay (get_admin_class s1 m) = c :: getListDisplay a ∧
      getListDisplay (get_admin_class s2 m) = getListDisplay a ++ [c] := by
  refine ⟨_, _, add_column_ok c lk true h, add_column_ok c lk false h, ?_, ?_⟩
  · rw [get_admin_class_of_lookup (lookup_reregister _ m _), getListDisplay_sub]
    simp
  · rw [get_admin_class_of_lookup (lookup_reregister _ m _), getListDisplay_sub]
    simp

theorem C5_prepend_append_witness :
    List.lookup 1 ([(1, AdminClass.modelAdmin)] : Site) = some AdminClass.modelAdmin ∧
    (∃ s1 s2,
      add_column_to_changelist [(1, AdminClass.modelAdmin)] 1 (Column.str "c") false true = .ok s1 ∧
      add_column_to_changelist [(1, AdminClass.modelAdmin)] 1 (Column.str "c") false false = .ok s2 ∧
      getListDisplay (get_admin_class s1 1) = Column.str "c" :: getListDisplay AdminClass.modelAdmin ∧
      getListDisplay (get_admin_class s2 1) = getListDisplay AdminClass.modelAdmin ++ [Column.str "c"]) :=
  ⟨rfl, C5_prepend_append [(1, AdminClass.modelAdmin)] 1 (Column.str "c") false
    AdminClass.modelAdmin rfl⟩

/-- C6: `add_column_to_changelist` with `link=True` and a text column
appends the column to the registered class's `list_display_links`; with a
callable column the links list gains no entry for that column even though
`link=True`. -/
theorem C6_link_only_for_text (s : Site) (m : Nat) (nm : String) (cid : Nat)
    (pp : Bool) (a : AdminClass)
    (h : List.lookup m s = some a) :
    ∃ s1 s2,
      add_column_to_changelist s m (Column.str nm) true pp = .ok s1 ∧
      add_column_to_changelist s m (Column.callable cid) true pp = .ok s2 ∧
      getListDisplayLinks (get_admin_class s1 m) = promotedLinks a ++ [Column.str nm] ∧
      getListDisplayLinks (get_admin_class s2 m) = promotedLinks a := by
  refine ⟨_, _, add_column_ok _ true pp h, add_column_ok _ true pp h, ?_, ?_⟩
  · rw [get_admin_class_of_lookup (lookup_reregister _ m _), getListDisplayLinks_sub]
    simp [Column.isBasestring]
  · rw [get_admin_class_of_lookup (lookup_reregister _ m _), getListDisplayLinks_sub]
    simp [Column.isBasestring]

theorem C6_link_only_for_text_witness :
    List.lookup 2 ([(2, AdminClass.modelAdmin)] : Site) = some AdminClass.modelAdmin ∧
    (∃ s1 s2,
      add_column_to_changelist [(2, AdminClass.modelAdmin)] 2 (Column.str "extra") true false = .ok s1 ∧
      add_column_to_changelist [(2, AdminClass.modelAdmin)] 2 (Column.callable 9) true false = .ok s2 ∧
      getListDisplayLinks (get_admin_class s1 2)
        = promotedLinks AdminClass.modelAdmin ++ [Column.str "extra"] ∧
      getListDisplayLinks (get_admin_class s2 2) = promotedLinks AdminClass.modelAdmin) :=
  ⟨rfl, C6_link_only_for_text [(2, AdminClass.modelAdmin)] 2 "extra" 9 false
    AdminClass.modelAdmin rfl⟩

/-- C7: when the current admin class declares no `list_display` the
default used is `['pk']`, and when it declares no `list_display_links`
the default is empty but the (non-empty) display list's first column —
here `'pk'` — is promoted to sole link target before the new column is
considered, so the links end up `['pk']` plus the new column exactly when
`link` holds and the column is text. -/
theorem C7_read_defaults (s : Site) (m : Nat) (c : Column) (lk pp : Bool) (a : AdminClass)
    (h : List.lookup m s = some a)
    (hd : getattr a "list_display" = none)
    (hl : getattr a "list_display_links" = none) :
    ∃ s1, add_column_to_changelist s m c lk pp = .ok s1 ∧
      getListDisplay (get_admin_class s1 m)
        = (if pp then [c, Column.str "pk"] else [Column.str "pk", c]) ∧
      getListDisplayLinks (get_admin_class s1 m)
        = Column.str "pk" :: (if lk && c.isBasestring then [c] else []) := by
  have hgd : getListDisplay a = [Column.str "pk"] := by simp [getListDisplay, hd]
  have hgl : getListDisplayLinks a = [] := by simp [getListDisplayLinks, hl]
  have hpl : promotedLinks a = [Column.str "pk"] := by
    simp [promotedLinks, hgd, hgl]
  refine ⟨_, add_column_ok c lk pp h, ?_, ?_⟩
  · rw [get_admin_class_of_lookup (lookup_reregister _ m _), getListDisplay_sub, hgd]
    cases pp <;> simp
  · rw [get_admin_class_of_lookup (lookup_reregister _ m _), getListDisplayLinks_sub, hpl]
    cases hc : (lk && c.isBasestring) <;> simp

theorem C7_read_defaults_witness :
    List.lookup 0 ([(0, AdminClass.plain [])] : Site) = some (AdminClass.plain []) ∧
    getattr (AdminClass.plain []) "list_display" = none ∧
    getattr (AdminClass.plain []) "list_display_links" = none ∧
    (∃ s1, add_column_to_changelist [(0, AdminClass.plain [])] 0 (Column.str "x") true false = .ok s1 ∧
      getListDisplay (get_admin_class s1 0)
        = (if false then [Column.str "x", Column.str "pk"] else [Column.str "pk", Column.str "x"]) ∧
      getListDisplayLinks (get_admin_class s1 0)
        = Column.str "pk" :: (if true && (Column.str "x").isBasestring then [Column.str "x"] else [])) :=
  ⟨rfl, rfl, rfl, C7_read_defaults [(0, AdminClass.plain [])] 0 (Column.str "x") true false
    (AdminClass.plain []) rfl rfl rfl⟩

/-- C8: `override_admin` synthesizes `type("NewModelAdmin", (current,
enhancement), {})` when `prefer_new=False`, and `(enhancement, current)`
when `prefer_new=True`.  On an attribute defined by both classes — in
Python parlance, present in each class's own `__dict__` — the first base
wins: in any consistent C3 linearisation of the synthesized class the
first base immediately follows it, so the previously registered class's
attribute wins by default and the enhancement's wins under `prefer_new`.
Consistency of the synthesized class's MRO is hypothesised; without it
the framework's `type` raises `TypeError` and no class is created. -/
theorem C8_override_precedence (s : Site) (m : Nat) (a enh : AdminClass)
    (nm : String) (va vb : Attr)
    (h : List.lookup m s = some a)
    (ha : List.lookup nm (classDict a) = some va)
    (hb : List.lookup nm (classDict enh) = some vb)
    (hm : (mro (AdminClass.sub2 [] a enh)).isSome = true)
    (hm2 : (mro (AdminClass.sub2 [] enh a)).isSome = true) :
    overrideNewAdmin s m enh false = AdminClass.sub2 [] a enh ∧
    overrideNewAdmin s m enh true = AdminClass.sub2 [] enh a ∧
    getattr (overrideNewAdmin s m enh false) nm = some va ∧
    getattr (overrideNewAdmin s m enh true) nm = some vb := by
  have hg := get_admin_class_of_lookup h
  refine ⟨by simp [overrideNewAdmin, hg], by simp [overrideNewAdmin, hg], ?_, ?_⟩
  · have := getattr_sub2_first a enh nm va ha hm
    simpa [overrideNewAdmin, hg] using this
  · have := getattr_sub2_first enh a nm vb hb hm2
    simpa [overrideNewAdmin, hg] using this

theorem C8_override_precedence_witness :
    List.lookup 4 ([(4, AdminClass.plain [("attrx", Attr.val 1)])] : Site)
      = some (AdminClass.plain [("attrx", Attr.val 1)]) ∧
    List.lookup "attrx" (classDict (AdminClass.plain [("attrx", Attr.val 1)]))
      = some (Attr.val 1) ∧
    List.lookup "attrx" (classDict (AdminClass.plain [("attrx", Attr.val 2)]))
      = some (Attr.val 2) ∧
    (mro (AdminClass.sub2 [] (AdminClass.plain [("attrx", Attr.val 1)])
      (AdminClass.plain [("attrx", Attr.val 2)]))).isSome = true ∧
    (mro (AdminClass.sub2 [] (AdminClass.plain [("attrx", Attr.val 2)])
      (AdminClass.plain [("attrx", Attr.val 1)]))).isSome = true ∧
    (overrideNewAdmin [(4, AdminClass.plain [("attrx", Attr.val 1)])] 4
        (AdminClass.plain [("attrx", Attr.val 2)]) false
      = AdminClass.sub2 [] (AdminClass.plain [("attrx", Attr.val 1)])
          (AdminClass.plain [("attrx", Attr.val 2)]) ∧
     overrideNewAdmin [(4, AdminClass.plain [("attrx", Attr.val 1)])] 4
        (AdminClass.plain [("attrx", Attr.val 2)]) true
      = AdminClass.sub2 [] (AdminClass.plain [("attrx", Attr.val 2)])
          (AdminClass.plain [("attrx", Attr.val 1)]) ∧
     getattr (overrideNewAdmin [(4, AdminClass.plain [("attrx", Attr.val 1)])] 4
        (AdminClass.plain [("attrx", Attr.val 2)]) false) "attrx" = some (Attr.val 1) ∧
     getattr (overrideNewAdmin [(4, AdminClass.plain [("attrx", Attr.val 1)])] 4
        (AdminClass.plain [("attrx", Attr.val 2)]) true) "attrx" = some (Attr.val 2)) :=
  ⟨rfl, rfl, rfl, rfl, rfl,
   C8_override_precedence [(4, AdminClass.plain [("attrx", Attr.val 1)])] 4
    (AdminClass.plain [("attrx", Attr.val 1)]) (AdminClass.plain [("attrx", Attr.val 2)])
    "attrx" (Attr.val 1) (Attr.val 2) rfl rfl rfl rfl rfl⟩

/-- C9: the claim that every composer operation registers a class whose
configuration is a superset of the old one fails on `override_admin`: on a
registered model the source never unregisters the current admin class, the
framework's `register` raises `AlreadyRegistered`, and no new class is
registered at all — here with an old class declaring an attribute the
registry still holds only that old class. -/
theorem C9_override_admin_registers_nothing :
    override_admin [(1, AdminClass.sub [("x", Attr.val 5)] AdminClass.modelAdmin)] 1
        (AdminClass.plain [("x", Attr.val 6)]) false
      = .error (RegError.alreadyRegistered 1) ∧
    get_admin_class [(1, AdminClass.sub [("x", Attr.val 5)] AdminClass.modelAdmin)] 1
      = AdminClass.sub [("x", Attr.val 5)] AdminClass.modelAdmin :=
  ⟨rfl, rfl⟩

/-- C10: the implicit-link promotion of lines 68-69 is computed before the
new column is inserted: with a declared non-empty `list_display` headed by
`d`, no declared `list_display_links`, `prepend=True`, `link=True` and a
text column, the registered class's `list_display_links` is `[d, column]`
even though the new column now heads `list_display`. -/
theorem C10_promotion_precedes_insertion (s : Site) (m : Nat) (nm : String)
    (a : AdminClass) (d : Column) (ds : List Column)
    (h : List.lookup m s = some a)
    (hd : getattr a "list_display" = some (Attr.listDisplay (d :: ds)))
    (hl : getattr a "list_display_links" = none) :
    ∃ s1, add_column_to_changelist s m (Column.str nm) true true = .ok s1 ∧
      getListDisplay (get_admin_class s1 m) = Column.str nm :: d :: ds ∧
      getListDisplayLinks (get_admin_class s1 m) = [d, Column.str nm] := by
  have hgd : getListDisplay a = d :: ds := by simp [getListDisplay, hd]
  have hgl : getListDisplayLinks a = [] := by simp [getListDisplayLinks, hl]
  have hpl : promotedLinks a = [d] := by simp [promotedLinks, hgd, hgl]
  refine ⟨_, add_column_ok _ true true h, ?_, ?_⟩
  · rw [get_admin_class_of_lookup (lookup_reregister _ m _), getListDisplay_sub]
    simp [hgd]
  · rw [get_admin_class_of_lookup (lookup_reregister _ m _), getListDisplayLinks_sub]
    simp [hpl, Column.isBasestring]

theorem C10_promotion_precedes_insertion_witness :
    List.lookup 7 ([(7, AdminClass.plain
        [("list_display", Attr.listDisplay [Column.str "a", Column.str "b"])])] : Site)
      = some (AdminClass.plain
        [("list_display", Attr.listDisplay [Column.str "a", Column.str "b"])]) ∧
    getattr (AdminClass.plain
        [("list_display", Attr.listDisplay [Column.str "a", Column.str "b"])]) "list_display"
      = some (Attr.listDisplay [Column.str "a", Column.str "b"]) ∧
    getattr (AdminClass.plain
        [("list_display", Attr.listDisplay [Column.str "a", Column.str "b"])]) "list_display_links"
      = none ∧
    (∃ s1, add_column_to_changelist [(7, AdminClass.plain
        [("list_display", Attr.listDisplay [Column.str "a", Column.str "b"])])] 7
        (Column.str "c") true true = .ok s1 ∧
      getListDisplay (get_admin_class s1 7)
        = Column.str "c" :: Column.str "a" :: [Column.str "b"] ∧
      getListDisplayLinks (get_admin_class s1 7) = [Column.str "a", Column.str "c"]) :=
  ⟨rfl, rfl, rfl, C10_promotion_precedes_insertion [(7, AdminClass.plain
      [("list_display", Attr.listDisplay [Column.str "a", Column.str "b"])])] 7 "c"
    (AdminClass.plain [("list_display", Attr.listDisplay [Column.str "a", Column.str "b"])])
    (Column.str "a") [Column.str "b"] rfl rfl rfl⟩

end DjangoDynamicAdmin
